import Mathlib

/-!
Shallow embedding of the `camera_depth` repository (stereo + time-of-flight
depth estimation pipeline) and proofs about the claims of its specification.

Conventions of the embedding:
* numpy arrays are flat lists of exact rationals (`ℚ` idealises the finite
  floating-point values; buffers that hold 8-bit pixels use `ℕ` values < 256);
* Python `None`-able attributes are `Option`s;
* functions that can raise return `Except PyError _`;
* external OpenCV primitives (remap resampling, the stereo solver, contour
  filling) are passed in as function parameters or modelled by their
  documented pixel-wise semantics (`cv2.inRange`, `cv2.mean`, `cv2.bitwise_and`).
-/

/-- A numpy array, modelled as a flat list of exact rationals. -/
abbrev NpArray := List ℚ

/-- Errors raised by the Python code or named by the specification's error
taxonomy (`NotCalibrated`, `CalibrationDivergent`). -/
inductive PyError where
  | notCalibrated
  | calibrationDivergent
  | cvError
  | valueError
  deriving DecidableEq, Repr

/-! Segmentation (`depth_traitement.py`, `DepthMapProcessor.process_disparity_image`).
The loop iterates over adjacent threshold pairs `(thresholds[i], thresholds[i+1])`,
builds `mask = cv2.inRange(field, lower, upper)` and the masked sub-field
`cv2.bitwise_and(field, field, mask=mask)`. `cv2.inRange` is inclusive on both
bounds. -/

/-- Pixel-wise `cv2.inRange(·, lower, upper)`: 255 where `lower ≤ v ≤ upper`
(both bounds inclusive, per OpenCV semantics), 0 elsewhere. -/
def inRangeMask (lower upper v : ℕ) : ℕ :=
  if lower ≤ v ∧ v ≤ upper then 255 else 0

/-- Pixel-wise `cv2.bitwise_and(src, src, mask=mask)`: keeps the source pixel
where the mask is non-zero, 0 elsewhere. -/
def maskAnd (maskv v : ℕ) : ℕ := if maskv ≠ 0 then v else 0

/-- One iteration of `DepthMapProcessor.process_disparity_image`: the masked
sub-field (`segmented_image`) for the band `(lower, upper)`. -/
def segmentBand (field : List ℕ) (lower upper : ℕ) : List ℕ :=
  field.map (fun v => maskAnd (inRangeMask lower upper v) v)

/-- The sequence of segments produced by the loop of
`process_disparity_image`, one per adjacent threshold pair. -/
def segments (field : List ℕ) (thresholds : List ℕ) : List (List ℕ) :=
  (thresholds.zip thresholds.tail).map (fun p => segmentBand field p.1 p.2)

/-! Depth from disparity (`stereo_vision.py`, `StereoVision.depth_calcul`):
`depth` starts as `np.zeros_like(disparity)` and is set to
`focal_length * baseline / disparity` exactly on the mask `disparity > 0`. -/

/-- `StereoVision.depth_calcul`, pixel-wise over the disparity field. -/
def depth_calcul (focal_length baseline : ℚ) (disparity : List ℚ) : List ℚ :=
  disparity.map (fun d => if 0 < d then focal_length * baseline / d else 0)

/-! Time-of-flight processing (`tof_sensor.py`, `TofCamera.process_frame`). -/

/-- The `TofCamera` state touched by `process_frame`. -/
structure TofCamera where
  max_distance : ℚ
  depth_buf : Option (List ℚ)
  amplitude_buf : Option (List ℚ)
  depth_normalized : Option (List ℕ)
  deriving DecidableEq, Repr

/-- The source's `np.nan_to_num(depth_buf)`. In the exact rational model every
value is finite, so this is the identity; in the source it replaces NaN by 0
(and infinities by huge finite floats). -/
def nan_to_num (d : List ℚ) : List ℚ := d

/-- The source's `np.where(amplitude_buf <= 7, 0, 255)`. -/
def threshold_amplitude (a : List ℚ) : List ℚ :=
  a.map (fun x => if x ≤ 7 then 0 else 255)

/-- The source's `np.clip(·, 0, 255).astype(np.uint8)`: clamp to `[0, 255]`
then truncate to an unsigned byte (truncation equals `Int.floor` on the
clamped non-negative value). -/
def clipByte (x : ℚ) : ℕ := (Int.floor (max 0 (min 255 x))).toNat

/-- The source's `.astype(np.uint8)` on an already integral non-negative
value (the thresholded amplitude is exactly 0 or 255). -/
def astypeUInt8 (x : ℚ) : ℕ := (Int.floor x % 256).toNat

/-- The source's `normalized_depth = np.clip((1 - depth/max_distance) * 255, 0, 255).astype(np.uint8)`. -/
def tofNormalize (max_distance : ℚ) (depth : List ℚ) : List ℕ :=
  depth.map (fun d => clipByte ((1 - d / max_distance) * 255))

/-- The source's `result_frame = normalized_depth & amplitude_buf.astype(np.uint8)`,
pixel-wise bitwise AND of bytes. -/
def tofCombine (normalized : List ℕ) (amp : List ℚ) : List ℕ :=
  List.zipWith (fun n a => Nat.land n (astypeUInt8 a)) normalized amp

/-- `TofCamera.process_frame`: raises `ValueError` when either buffer is
`None`; otherwise replaces NaNs, thresholds the amplitude, normalizes the
depth and combines the two, returning the updated state and the result
frame. -/
def process_frame (c : TofCamera) : Except PyError (TofCamera × List ℕ) :=
  match c.depth_buf, c.amplitude_buf with
  | some depth0, some amp0 =>
      let depth := nan_to_num depth0
      let amp := threshold_amplitude amp0
      let normalized := tofNormalize c.max_distance depth
      let result := tofCombine normalized amp
      Except.ok ({ c with
                    depth_buf := some depth
                    amplitude_buf := some amp
                    depth_normalized := some normalized }, result)
  | _, _ => Except.error PyError.valueError

/-! Calibration store (`calibration_camera.py`, `StereoCalibration`).
Attributes keyed by `"left"/"right"` dictionaries become a two-field
structure. Persistence (`save_data`/`load_data`) works one `.npy` file per
scalar attribute and two (`<key>_left`, `<key>_right`) per dictionary
attribute; a directory is a finite map from file name to file content.
A file content of `none` models the pickled object `np.save` writes for a
`None` attribute, which `np.load` then refuses to read (raising inside
`load_data`'s `try`, which aborts the rest of the load). -/

/-- A `{"left": ..., "right": ...}` attribute of `StereoCalibration`. -/
structure SideDict where
  left : Option NpArray
  right : Option NpArray
  deriving DecidableEq, Repr

/-- The attributes of `StereoCalibration`, in `__dict__` order. -/
structure StereoCalibration where
  cam_mats : SideDict
  dist_coefs : SideDict
  rot_mat : Option NpArray
  trans_vec : Option NpArray
  e_mat : Option NpArray
  f_mat : Option NpArray
  rect_trans : SideDict
  proj_mats : SideDict
  disp_to_depth_mat : Option NpArray
  valid_boxes : SideDict
  undistortion_map : SideDict
  rectification_map : SideDict
  deriving DecidableEq, Repr

/-- `StereoCalibration.__init__`: every attribute starts `None`. -/
def StereoCalibration.init : StereoCalibration :=
  ⟨⟨none, none⟩, ⟨none, none⟩, none, none, none, none,
   ⟨none, none⟩, ⟨none, none⟩, none, ⟨none, none⟩, ⟨none, none⟩, ⟨none, none⟩⟩

/-- A directory of `.npy` files: file name to file content. -/
abbrev Store := List (String × Option NpArray)

/-- File lookup: `none` when the file does not exist. -/
def lookupStore (st : Store) (name : String) : Option (Option NpArray) :=
  (st.find? (fun e => e.1 = name)).map Prod.snd

/-- `StereoCalibration.save_data` restricted to the `.npy` files it writes
(the `.csv` twins are never read back by `load_data`): one file per scalar
attribute, `<key>_left` / `<key>_right` per dictionary attribute, iterated
in `__dict__` order. -/
def save_data (c : StereoCalibration) : Store :=
  [("cam_mats_left", c.cam_mats.left), ("cam_mats_right", c.cam_mats.right),
   ("dist_coefs_left", c.dist_coefs.left), ("dist_coefs_right", c.dist_coefs.right),
   ("rot_mat", c.rot_mat), ("trans_vec", c.trans_vec),
   ("e_mat", c.e_mat), ("f_mat", c.f_mat),
   ("rect_trans_left", c.rect_trans.left), ("rect_trans_right", c.rect_trans.right),
   ("proj_mats_left", c.proj_mats.left), ("proj_mats_right", c.proj_mats.right),
   ("disp_to_depth_mat", c.disp_to_depth_mat),
   ("valid_boxes_left", c.valid_boxes.left), ("valid_boxes_right", c.valid_boxes.right),
   ("undistortion_map_left", c.undistortion_map.left),
   ("undistortion_map_right", c.undistortion_map.right),
   ("rectification_map_left", c.rectification_map.left),
   ("rectification_map_right", c.rectification_map.right)]

/-- Intermediate state of `StereoCalibration.load_data`: the fields loaded so
far, the "File ... not found." warnings printed so far, and whether an
exception escaped to the surrounding `except` (which abandons the remaining
fields). -/
structure LoadState where
  calib : StereoCalibration
  warnings : List String
  aborted : Bool
  deriving DecidableEq, Repr

/-- Loading of one `.npy` file inside `load_data`: a missing file is a
non-fatal warning that leaves the field unchanged; an unreadable file raises,
aborting the rest of the load; otherwise the field is overwritten. -/
def loadField (st : Store) (name : String)
    (set : StereoCalibration → NpArray → StereoCalibration)
    (s : LoadState) : LoadState :=
  if s.aborted then s
  else
    match lookupStore st name with
    | none => { s with warnings := s.warnings ++ [name] }
    | some none => { s with aborted := true }
    | some (some a) => { s with calib := set s.calib a }

/-- The field schema iterated by `load_data`'s `for key in self.__dict__`
loop, in `__dict__` order: the file name of each attribute (dictionary
attributes contributing `<key>_left` then `<key>_right`) together with the
assignment the loop performs on it. -/
def calibFields : List (String × (StereoCalibration → NpArray → StereoCalibration)) :=
  [("cam_mats_left", fun c a => { c with cam_mats := { c.cam_mats with left := some a } }),
   ("cam_mats_right", fun c a => { c with cam_mats := { c.cam_mats with right := some a } }),
   ("dist_coefs_left", fun c a => { c with dist_coefs := { c.dist_coefs with left := some a } }),
   ("dist_coefs_right", fun c a => { c with dist_coefs := { c.dist_coefs with right := some a } }),
   ("rot_mat", fun c a => { c with rot_mat := some a }),
   ("trans_vec", fun c a => { c with trans_vec := some a }),
   ("e_mat", fun c a => { c with e_mat := some a }),
   ("f_mat", fun c a => { c with f_mat := some a }),
   ("rect_trans_left", fun c a => { c with rect_trans := { c.rect_trans with left := some a } }),
   ("rect_trans_right", fun c a => { c with rect_trans := { c.rect_trans with right := some a } }),
   ("proj_mats_left", fun c a => { c with proj_mats := { c.proj_mats with left := some a } }),
   ("proj_mats_right", fun c a => { c with proj_mats := { c.proj_mats with right := some a } }),
   ("disp_to_depth_mat", fun c a => { c with disp_to_depth_mat := some a }),
   ("valid_boxes_left", fun c a => { c with valid_boxes := { c.valid_boxes with left := some a } }),
   ("valid_boxes_right", fun c a => { c with valid_boxes := { c.valid_boxes with right := some a } }),
   ("undistortion_map_left",
     fun c a => { c with undistortion_map := { c.undistortion_map with left := some a } }),
   ("undistortion_map_right",
     fun c a => { c with undistortion_map := { c.undistortion_map with right := some a } }),
   ("rectification_map_left",
     fun c a => { c with rectification_map := { c.rectification_map with left := some a } }),
   ("rectification_map_right",
     fun c a => { c with rectification_map := { c.rectification_map with right := some a } })]

/-- `StereoCalibration.load_data`, iterating the attributes in `__dict__`
order over the given directory. -/
def load_data (c : StereoCalibration) (st : Store) : LoadState :=
  calibFields.foldl (fun s p => loadField st p.1 p.2 s)
    { calib := c, warnings := [], aborted := false }

/-- `cv2.remap(frame, map1, map2, cv2.INTER_NEAREST)`: the external
resampling kernel `remapPrim` runs only when both maps are arrays; a `None`
map makes OpenCV raise (a `cv2.error`, not any repository-defined error). -/
def cvRemap (remapPrim : NpArray → NpArray → NpArray → NpArray)
    (frame : NpArray) (map1 map2 : Option NpArray) : Except PyError NpArray :=
  match map1, map2 with
  | some m1, some m2 => Except.ok (remapPrim frame m1 m2)
  | _, _ => Except.error PyError.cvError

/-- `StereoCalibration.rectify`: per side, remap the frame through the stored
undistortion and rectification maps. No other attribute is consulted. -/
def rectify (remapPrim : NpArray → NpArray → NpArray → NpArray)
    (c : StereoCalibration) (frames : NpArray × NpArray) :
    Except PyError (List NpArray) := do
  let fl ← cvRemap remapPrim frames.1 c.undistortion_map.left c.rectification_map.left
  let fr ← cvRemap remapPrim frames.2 c.undistortion_map.right c.rectification_map.right
  Except.ok [fl, fr]

/-! Calibration computation (`calibration_camera.py`, `Calibrator`). The
numerical kernels `cv2.stereoCalibrate`, `cv2.stereoRectify`,
`cv2.initUndistortRectifyMap`, `cv2.findChessboardCorners` and
`cv2.cornerSubPix` are external primitives, passed in as parameters. -/

/-- Output of `cv2.stereoCalibrate` after the source's `[1:]` drops the
leading RMS residual. `converged` records whether the solver met its
termination criteria with a finite result; the source never inspects it. -/
structure StereoCalibrateResult where
  cam_mat_left : NpArray
  dist_left : NpArray
  cam_mat_right : NpArray
  dist_right : NpArray
  rot_mat : NpArray
  trans_vec : NpArray
  e_mat : NpArray
  f_mat : NpArray
  converged : Bool
  deriving DecidableEq, Repr

/-- Output of `cv2.stereoRectify`. -/
structure StereoRectifyResult where
  rect_left : NpArray
  rect_right : NpArray
  proj_left : NpArray
  proj_right : NpArray
  disp_to_depth : NpArray
  valid_left : NpArray
  valid_right : NpArray
  deriving DecidableEq, Repr

/-- Output of `cv2.initUndistortRectifyMap` for one side. -/
structure RemapTables where
  undistortion : NpArray
  rectification : NpArray
  deriving DecidableEq, Repr

/-- The `Calibrator` state: chessboard geometry and the accumulated
observations. -/
structure Calibrator where
  image_count : ℕ
  row : ℕ
  column : ℕ
  square_size : ℚ
  image_size : ℕ × ℕ
  corner_coordinates : NpArray
  object_points : List NpArray
  image_points_left : List NpArray
  image_points_right : List NpArray
  deriving DecidableEq, Repr

/-- `Calibrator.corner_detect`: appends the known 3D corner coordinates to
`object_points`, then for each image of the pair detects corners
(`findCorners`, `none` when `cv2.findChessboardCorners` fails), refines them
(`subPix`, the sub-pixel refinement applied when detection succeeded), and
appends them; when detection failed the source calls `.reshape` on the `None`
corners, raising. Finally increments `image_count`. -/
def corner_detect (findCorners : NpArray → Option NpArray)
    (subPix : NpArray → NpArray)
    (cal : Calibrator) (pair : NpArray × NpArray) : Except PyError Calibrator := do
  let cal := { cal with object_points := cal.object_points ++ [cal.corner_coordinates] }
  let cl ← match findCorners pair.1 with
    | some cs => Except.ok (subPix cs)
    | none => Except.error PyError.cvError
  let cal := { cal with image_points_left := cal.image_points_left ++ [cl] }
  let cr ← match findCorners pair.2 with
    | some cs => Except.ok (subPix cs)
    | none => Except.error PyError.cvError
  let cal := { cal with image_points_right := cal.image_points_right ++ [cr] }
  Except.ok { cal with image_count := cal.image_count + 1 }

/-- `Calibrator.calibrate_camera`: runs the stereo solver, the rectification
computation and the per-side remap-table construction, storing every output
in a fresh `StereoCalibration`. The source contains no convergence,
finiteness or error check of any kind: the assembled parameters are returned
unconditionally. -/
def calibrate_camera
    (stereoCalibratePrim :
      List NpArray → List NpArray → List NpArray → (ℕ × ℕ) → StereoCalibrateResult)
    (stereoRectifyPrim :
      NpArray → NpArray → NpArray → NpArray → (ℕ × ℕ) → NpArray → NpArray →
        StereoRectifyResult)
    (initUndistortRectifyMapPrim :
      NpArray → NpArray → NpArray → NpArray → (ℕ × ℕ) → RemapTables)
    (cal : Calibrator) : Except PyError StereoCalibration :=
  let solve := stereoCalibratePrim cal.object_points cal.image_points_left
    cal.image_points_right cal.image_size
  let rect := stereoRectifyPrim solve.cam_mat_left solve.dist_left
    solve.cam_mat_right solve.dist_right cal.image_size solve.rot_mat solve.trans_vec
  let mapsL := initUndistortRectifyMapPrim solve.cam_mat_left solve.dist_left
    rect.rect_left rect.proj_left cal.image_size
  let mapsR := initUndistortRectifyMapPrim solve.cam_mat_right solve.dist_right
    rect.rect_right rect.proj_right cal.image_size
  Except.ok
    { cam_mats := ⟨some solve.cam_mat_left, some solve.cam_mat_right⟩
      dist_coefs := ⟨some solve.dist_left, some solve.dist_right⟩
      rot_mat := some solve.rot_mat
      trans_vec := some solve.trans_vec
      e_mat := some solve.e_mat
      f_mat := some solve.f_mat
      rect_trans := ⟨some rect.rect_left, some rect.rect_right⟩
      proj_mats := ⟨some rect.proj_left, some rect.proj_right⟩
      disp_to_depth_mat := some rect.disp_to_depth
      valid_boxes := ⟨some rect.valid_left, some rect.valid_right⟩
      undistortion_map := ⟨some mapsL.undistortion, some mapsR.undistortion⟩
      rectification_map := ⟨some mapsL.rectification, some mapsR.rectification⟩ }

/-- `Calibrator.calibration_process`: reads image pairs numbered 1 to
`nbr_photo` (`readPair k = none` models a missing file pair, silently
skipped), accumulates corner observations, runs `calibrate_camera` and
persists the result with `save_data` — unconditionally. -/
def calibration_process
    (findCorners : NpArray → Option NpArray) (subPix : NpArray → NpArray)
    (stereoCalibratePrim :
      List NpArray → List NpArray → List NpArray → (ℕ × ℕ) → StereoCalibrateResult)
    (stereoRectifyPrim :
      NpArray → NpArray → NpArray → NpArray → (ℕ × ℕ) → NpArray → NpArray →
        StereoRectifyResult)
    (initUndistortRectifyMapPrim :
      NpArray → NpArray → NpArray → NpArray → (ℕ × ℕ) → RemapTables)
    (cal : Calibrator) (nbr_photo : ℕ)
    (readPair : ℕ → Option (NpArray × NpArray)) :
    Except PyError (StereoCalibration × Store) := do
  let cal ← (List.range nbr_photo).foldlM
    (fun c k =>
      match readPair (k + 1) with
      | some pair => corner_detect findCorners subPix c pair
      | none => Except.ok c)
    cal
  let calib ← calibrate_camera stereoCalibratePrim stereoRectifyPrim
    initUndistortRectifyMapPrim cal
  Except.ok (calib, save_data calib)

/-! Contour mean amplitude (`depth_traitement.py`,
`DepthMapProcessor.calculate_mean_amplitude`). A contour is modelled by the
two facts the method consumes: its `cv2.contourArea` and the set of pixels
set by `cv2.drawContours(mask, [contour], -1, 255, -1)` — the filled
interior, boundary included. `cv2.mean(img, mask)` averages over the
non-zero mask pixels (and yields 0 on an empty mask, as division by zero
does in `ℚ`). -/

/-- A contour as consumed by `calculate_mean_amplitude`. -/
structure Contour where
  fill : Finset (ℕ × ℕ)
  area : ℚ

/-- The `DepthMapProcessor` state consulted by `calculate_mean_amplitude`. -/
structure DepthMapProcessor where
  depth_map_original : ℕ × ℕ → ℚ
  pixel_min : ℕ
  min_contour_area : ℚ
  thresholds : List ℕ
  kernel_size : ℕ
  dilate_iterations : ℕ
  erode_iterations : ℕ

/-- `cv2.mean(img, mask=mask)[0]`: arithmetic mean of `img` over the
non-zero pixels of the mask. -/
def cvMean (img : ℕ × ℕ → ℚ) (mask : Finset (ℕ × ℕ)) : ℚ :=
  (∑ p ∈ mask, img p) / mask.card

/-- `DepthMapProcessor.calculate_mean_amplitude`: the `mean_amplitudes`
dictionary, as the association list of `(index, mean)` entries for each
contour whose area passes the `min_contour_area` gate; the mean is taken
over the contour's filled mask. -/
def calculate_mean_amplitude (proc : DepthMapProcessor)
    (contours : List Contour) : List (ℕ × ℚ) :=
  contours.enum.filterMap (fun ic =>
    if proc.min_contour_area ≤ ic.2.area then
      some (ic.1, cvMean proc.depth_map_original ic.2.fill)
    else none)

/-! Producer/consumer pipeline (`stereo_vision.py`,
`StereoVision.capture_and_compute` / `StereoVision.depth_map_display`),
as a labelled transition system. One producer step is one loop iteration of
`capture_and_compute` (flag check, capture/compute, push) or — once the flag
is observed — the single `(None, None)` sentinel push followed by exit. One
consumer step is one loop iteration of `depth_map_display` (condition check
`not stop or not empty`, poll, pop and display). `setStop` is the external
setting of the shared cancellation flag. -/

/-- A queue message: `some k` is the k-th `(disparity_normalized, depth)`
pair, `none` the `(None, None)` end-of-stream sentinel. -/
abbrev Msg := Option ℕ

/-- Global state of the two pipeline processes and their shared queue and
stop event. -/
structure PipeState where
  queue : List Msg
  stop : Bool
  prodDone : Bool
  consDone : Bool
  consCrashed : Bool
  produced : ℕ
  received : List Msg
  deriving DecidableEq, Repr

/-- Scheduling labels. -/
inductive PipeLabel where
  | prodStep
  | consStep
  | setStop
  deriving DecidableEq, Repr

/-- The transition function. The consumer exits its loop when the flag is
set and the queue is empty; on popping the sentinel it hands `None` to
`cv2.applyColorMap`, which raises, crashing the display process
(`consCrashed`). -/
def pipeStep : PipeLabel → PipeState → PipeState
  | PipeLabel.setStop, s => { s with stop := true }
  | PipeLabel.prodStep, s =>
      if s.prodDone then s
      else if s.stop then { s with queue := s.queue ++ [none], prodDone := true }
      else { s with queue := s.queue ++ [some s.produced], produced := s.produced + 1 }
  | PipeLabel.consStep, s =>
      if s.consDone ∨ s.consCrashed then s
      else if s.stop ∧ s.queue = [] then { s with consDone := true }
      else
        match s.queue with
        | [] => s
        | m :: rest =>
            { s with queue := rest, received := s.received ++ [m],
                     consCrashed := m.isNone }

/-- Run a schedule from a state. -/
def pipeRun (sched : List PipeLabel) (s : PipeState) : PipeState :=
  sched.foldl (fun st l => pipeStep l st) s

/-- The initial pipeline state: empty queue, flag clear, both loops
running. -/
def pipeInit : PipeState :=
  { queue := [], stop := false, prodDone := false, consDone := false,
    consCrashed := false, produced := 0, received := [] }

/-! Theorems about the claims. -/

/-- C2, counterexample: `cv2.inRange` is inclusive on both bounds, so the
segment for the band `(50, 100)` keeps a pixel of value exactly 100 (the
claim's half-open band `[50, 100)` demands it be excluded), and that pixel
simultaneously belongs to the adjacent segment for `(100, 200)`. -/
theorem c2_counterexample :
    segmentBand [100] 50 100 = [100] ∧ ¬ (100 < 100) ∧
    segments [100] [50, 100, 200] = [[100], [100]] :=
  ⟨rfl, by decide, rfl⟩

/-- C2, amended: the segment produced for a boundary pair `(lower, upper)`
keeps exactly the pixels with `lower ≤ v ≤ upper` (closed band, both bounds
inclusive) and zeroes the rest; a pixel whose value equals an interior
boundary therefore belongs to both adjacent segments. -/
theorem c2_segment_closed_band (field : List ℕ) (lower upper i v : ℕ)
    (hv : field[i]? = some v) :
    (segmentBand field lower upper)[i]? =
      some (if lower ≤ v ∧ v ≤ upper then v else 0) := by
  have h : (segmentBand field lower upper)[i]? =
      some (maskAnd (inRangeMask lower upper v) v) := by
    simp [segmentBand, hv]
  rw [h]
  unfold maskAnd inRangeMask
  split_ifs <;> simp_all

/-- C2, witness: the amended theorem applied at a concrete field and band. -/
theorem c2_witness :
    (segmentBand [60] 50 100)[0]? =
      some (if 50 ≤ 60 ∧ 60 ≤ 100 then 60 else 0) :=
  c2_segment_closed_band [60] 50 100 0 60 rfl

/-- C3: the depth field computed by `depth_calcul` is non-zero exactly where
the disparity is positive, satisfies `depth * disparity = focal_length *
baseline` there, and keeps the zero sentinel where disparity ≤ 0 (for
physically meaningful positive focal length and baseline). -/
theorem c3_depth_calcul (f b : ℚ) (disp : List ℚ) (i : ℕ) (d : ℚ)
    (hf : 0 < f) (hb : 0 < b) (hd : disp[i]? = some d) :
    ∃ dep, (depth_calcul f b disp)[i]? = some dep ∧
      (dep ≠ 0 ↔ 0 < d) ∧ (0 < d → dep * d = f * b) ∧ (d ≤ 0 → dep = 0) := by
  refine ⟨if 0 < d then f * b / d else 0, ?_, ?_, ?_, ?_⟩
  · simp [depth_calcul, hd]
  · split_ifs with h
    · simp [div_ne_zero (mul_ne_zero hf.ne' hb.ne') h.ne', h]
    · simp [h]
  · intro h
    rw [if_pos h, div_mul_cancel₀ _ h.ne']
  · intro h
    rw [if_neg (not_lt.mpr h)]

/-- C3, witness: the theorem applied at disparity 2, focal length 1300
and baseline 3/50. -/
theorem c3_witness :
    ∃ dep, (depth_calcul 1300 (3/50) [2])[0]? = some dep ∧
      (dep ≠ 0 ↔ (0:ℚ) < 2) ∧ ((0:ℚ) < 2 → dep * 2 = 1300 * (3/50)) ∧
      ((2:ℚ) ≤ 0 → dep = 0) :=
  c3_depth_calcul 1300 (3/50) [2] 0 2 (by norm_num) (by norm_num) rfl

/-- `Nat.land` is the `&&&` operation on `ℕ`. -/
lemma land_eq_and (n m : ℕ) : Nat.land n m = n &&& m := rfl

/-- The clipped byte cast never exceeds 255. -/
lemma clipByte_le (x : ℚ) : clipByte x ≤ 255 := by
  unfold clipByte
  have h1 : max 0 (min 255 x) ≤ (255 : ℚ) :=
    max_le (by norm_num) (min_le_left _ _)
  have h2 : Int.floor (max 0 (min 255 x)) ≤ (255 : ℤ) := by
    have := Int.floor_le_floor h1
    simpa using this
  omega

/-- Bitwise AND with the all-ones byte 255 is the identity on bytes. -/
lemma land_255 (n : ℕ) (h : n ≤ 255) : Nat.land n 255 = n := by
  rw [land_eq_and]
  apply Nat.eq_of_testBit_eq
  intro i
  rw [Nat.testBit_land]
  by_cases hi : i < 8
  · have h255 : Nat.testBit 255 i = true := by interval_cases i <;> decide
    simp [h255]
  · have hn : Nat.testBit n i = false := by
      apply Nat.testBit_eq_false_of_lt
      calc n ≤ 255 := h
        _ < 2 ^ 8 := by norm_num
        _ ≤ 2 ^ i := Nat.pow_le_pow_right (by norm_num) (by omega)
    simp [hn]

/-- The thresholded amplitude byte: 0 below the cutoff, 255 above. -/
lemma astypeUInt8_threshold (y : ℚ) :
    astypeUInt8 (if y ≤ 7 then (0 : ℚ) else 255) = if y ≤ 7 then 0 else 255 := by
  split_ifs <;> decide

/-- C10: `process_frame` raises `ValueError` exactly when the depth buffer or
the amplitude buffer is `None` (before touching any data); with both buffers
present it proceeds and returns the processed state and result frame without
raising. -/
theorem c10_value_error_iff :
    (∀ c : TofCamera, process_frame c = Except.error PyError.valueError ↔
      (c.depth_buf = none ∨ c.amplitude_buf = none))
    ∧ (∀ (c : TofCamera) (d a : List ℚ), c.depth_buf = some d →
        c.amplitude_buf = some a →
        process_frame c = Except.ok
          ({ c with depth_buf := some (nan_to_num d)
                    amplitude_buf := some (threshold_amplitude a)
                    depth_normalized := some (tofNormalize c.max_distance (nan_to_num d)) },
            tofCombine (tofNormalize c.max_distance (nan_to_num d)) (threshold_amplitude a))) := by
  constructor
  · intro c
    rcases hd : c.depth_buf with _ | d <;> rcases ha : c.amplitude_buf with _ | a <;>
      simp [process_frame, hd, ha]
  · intro c d a hd ha
    simp [process_frame, hd, ha]

/-- C10, witness: both buffers present at a concrete state. -/
theorem c10_witness :
    process_frame
        { max_distance := 4, depth_buf := some [1], amplitude_buf := some [10],
          depth_normalized := none } =
      Except.ok
        ({ max_distance := 4, depth_buf := some (nan_to_num [1]),
           amplitude_buf := some (threshold_amplitude [10]),
           depth_normalized := some (tofNormalize 4 (nan_to_num [1])) },
          tofCombine (tofNormalize 4 (nan_to_num [1])) (threshold_amplitude [10])) :=
  c10_value_error_iff.2 _ [1] [10] rfl rfl

/-- C6: with both buffers present, each pixel of the result frame equals the
clamped byte normalization `clip((1 - depth/max_distance) * 255, 0, 255)`
where the amplitude exceeds the confidence cutoff 7, and 0 where the
amplitude is at most 7. -/
theorem c6_tof_pixel (c : TofCamera) (d a : List ℚ) (i : ℕ) (x y : ℚ)
    (hd : c.depth_buf = some d) (ha : c.amplitude_buf = some a)
    (hx : d[i]? = some x) (hy : a[i]? = some y) :
    ∃ res, process_frame c = Except.ok res ∧
      res.2[i]? = some (if y ≤ 7 then 0
        else clipByte ((1 - x / c.max_distance) * 255)) := by
  have hpf : process_frame c = Except.ok
      ({ c with depth_buf := some (nan_to_num d)
                amplitude_buf := some (threshold_amplitude a)
                depth_normalized := some (tofNormalize c.max_distance (nan_to_num d)) },
        tofCombine (tofNormalize c.max_distance (nan_to_num d)) (threshold_amplitude a)) := by
    simp [process_frame, hd, ha]
  refine ⟨_, hpf, ?_⟩
  show (tofCombine (tofNormalize c.max_distance (nan_to_num d)) (threshold_amplitude a))[i]?
    = _
  rw [tofCombine, List.getElem?_zipWith_eq_some]
  refine ⟨clipByte ((1 - x / c.max_distance) * 255), if y ≤ 7 then (0:ℚ) else 255,
    ?_, ?_, ?_⟩
  · simp [tofNormalize, nan_to_num, hx]
  · simp [threshold_amplitude, hy]
  · rw [astypeUInt8_threshold]
    split_ifs with h
    · rw [land_eq_and, Nat.and_zero]
    · exact land_255 _ (clipByte_le _)

/-- C6, witness: the theorem applied at a concrete frame (depth 1 m, max
distance 4 m, amplitude 10). -/
theorem c6_witness :
    ∃ res, process_frame
        { max_distance := 4, depth_buf := some [1], amplitude_buf := some [10],
          depth_normalized := none } = Except.ok res ∧
      res.2[0]? = some (if (10:ℚ) ≤ 7 then 0 else clipByte ((1 - 1 / (4:ℚ)) * 255)) :=
  c6_tof_pixel _ [1] [10] 0 1 10 rfl rfl rfl rfl


/-- C7, counterexample: `process_frame` is not idempotent on its own output.
On depth 0 (max distance 4, full amplitude) the output pixel is 255; feeding
that already-normalized, already-masked output back as the depth field
yields 0, because the normalization inverts the brightness scale again. -/
theorem c7_counterexample :
    process_frame ⟨4, some [0], some [255], none⟩ =
      Except.ok (⟨4, some [0], some [255], some [255]⟩, [255]) ∧
    process_frame ⟨4, some [255], some [255], some [255]⟩ =
      Except.ok (⟨4, some [255], some [255], some [0]⟩, [0]) ∧
    (255 : ℕ) ≠ 0 := by
  refine ⟨?_, ?_, by decide⟩ <;>
    · norm_num [process_frame, nan_to_num, threshold_amplitude, tofNormalize,
        tofCombine, clipByte, astypeUInt8, min_def, max_def]
      decide

/-- The thresholded-amplitude map is idempotent pixel-wise. -/
lemma threshold_point (x : ℚ) :
    (if (if x ≤ 7 then (0:ℚ) else 255) ≤ 7 then (0:ℚ) else 255) =
      if x ≤ 7 then (0:ℚ) else 255 := by
  by_cases h : x ≤ 7
  · rw [if_pos h, if_pos (by norm_num : (0:ℚ) ≤ 7)]
  · rw [if_neg h, if_neg (by norm_num : ¬ (255:ℚ) ≤ 7)]

/-- Masking twice by the same byte is the same as masking once. -/
lemma land_land_self (p q : ℕ) : Nat.land (Nat.land p q) q = Nat.land p q := by
  show (p &&& q) &&& q = p &&& q
  rw [Nat.and_assoc, Nat.and_self]

/-- Re-masking the combined output by the same amplitude changes nothing. -/
lemma tofCombine_mask_again (norm : List ℕ) (amp : List ℚ) :
    tofCombine (tofCombine norm amp) amp = tofCombine norm amp := by
  induction norm generalizing amp with
  | nil => rfl
  | cons n ns ih =>
      cases amp with
      | nil => rfl
      | cons a as =>
          simp only [tofCombine, List.zipWith_cons_cons] at ih ⊢
          rw [land_land_self]
          exact congrArg _ (ih as)

/-- C7, amended: every output value of the ToF normalization pipeline lies in
`[0, 255]`; masking the output again by the same binarized amplitude is the
identity, and the amplitude thresholding itself is idempotent — but the full
normalize re-applied to its own depth output is not the identity (it inverts
the brightness scale, see the counterexample). -/
theorem c7_amended :
    (∀ (m : ℚ) (d a : List ℚ) (i x : ℕ),
        (tofCombine (tofNormalize m d) (threshold_amplitude a))[i]? = some x →
          x ≤ 255)
    ∧ (∀ (m : ℚ) (d a : List ℚ),
        tofCombine (tofCombine (tofNormalize m d) (threshold_amplitude a))
            (threshold_amplitude a)
          = tofCombine (tofNormalize m d) (threshold_amplitude a))
    ∧ ∀ a : List ℚ, threshold_amplitude (threshold_amplitude a) = threshold_amplitude a := by
  refine ⟨?_, fun m d a => tofCombine_mask_again _ _, ?_⟩
  · intro m d a i x hx
    rw [tofCombine, List.getElem?_zipWith_eq_some] at hx
    obtain ⟨n, av, hn, _, rfl⟩ := hx
    rw [tofNormalize, List.getElem?_map] at hn
    obtain ⟨dv, _, hval⟩ := Option.map_eq_some'.mp hn
    subst hval
    rw [land_eq_and]
    exact le_trans Nat.and_le_left (clipByte_le _)
  · intro a
    induction a with
    | nil => rfl
    | cons x t ih =>
        simp only [threshold_amplitude, List.map_cons, List.map_map] at ih ⊢
        rw [List.cons_eq_cons]
        exact ⟨threshold_point x, by simpa [Function.comp] using ih⟩

/-- C7, witness: the range bound applied at a concrete frame whose output
pixel is 255. -/
theorem c7_witness : (255 : ℕ) ≤ 255 :=
  c7_amended.1 1 [0] [10] 0 255 (by
    norm_num [threshold_amplitude, tofNormalize, tofCombine, clipByte,
      astypeUInt8, min_def, max_def]
    decide)

/-- One `load_data` step leaves `rot_mat` unchanged when the step's file is
missing or its assignment does not touch `rot_mat`. -/
lemma loadField_rot_mat (st : Store) (name : String)
    (set : StereoCalibration → NpArray → StereoCalibration) (s : LoadState)
    (h : lookupStore st name = none ∨ ∀ c a, (set c a).rot_mat = c.rot_mat) :
    (loadField st name set s).calib.rot_mat = s.calib.rot_mat := by
  unfold loadField
  split_ifs with hab
  · rfl
  · rcases h with h | h
    · rw [h]
    · rcases hlk : lookupStore st name with _ | ov
      · rfl
      · rcases ov with _ | a
        · rfl
        · simp [h]

/-- The `load_data` loop leaves `rot_mat` unchanged when every iterated field
either has no file in the directory or does not assign `rot_mat`. -/
lemma foldl_loadField_rot_mat (st : Store)
    (l : List (String × (StereoCalibration → NpArray → StereoCalibration)))
    (h : ∀ p ∈ l, lookupStore st p.1 = none ∨ ∀ c a, (p.2 c a).rot_mat = c.rot_mat) :
    ∀ s : LoadState,
      ((l.foldl (fun s p => loadField st p.1 p.2 s) s).calib).rot_mat =
        s.calib.rot_mat := by
  induction l with
  | nil => intro s; rfl
  | cons p tl ih =>
      intro s
      rw [List.foldl_cons, ih (fun q hq => h q (List.mem_cons_of_mem _ hq))]
      exact loadField_rot_mat st p.1 p.2 s (h p (List.mem_cons_self _ _))

/-- A fully populated calibration state, used as a concrete instance. -/
def calibFull : StereoCalibration :=
  ⟨⟨some [1], some [2]⟩, ⟨some [3], some [4]⟩, some [5], some [6], some [7], some [8],
   ⟨some [9], some [10]⟩, ⟨some [11], some [12]⟩, some [13], ⟨some [14], some [15]⟩,
   ⟨some [16], some [17]⟩, ⟨some [18], some [19]⟩⟩

/-- A calibration directory with every file except `rot_mat.npy`. -/
def storeNoRot : Store :=
  (save_data calibFull).filter (fun e => e.1 ≠ "rot_mat")

/-- C1, counterexample: loading from a directory missing only `rot_mat.npy`
completes without aborting, warns about `rot_mat`, and leaves `rot_mat`
unset — but the subsequent `rectify` call succeeds (it consults only the
remap maps), instead of failing with a `NotCalibrated` error as claimed. -/
theorem c1_counterexample :
    (load_data StereoCalibration.init storeNoRot).aborted = false ∧
    (load_data StereoCalibration.init storeNoRot).warnings = ["rot_mat"] ∧
    (load_data StereoCalibration.init storeNoRot).calib.rot_mat = none ∧
    rectify (fun f _ _ => f) (load_data StereoCalibration.init storeNoRot).calib
        ([20], [21]) = Except.ok [[20], [21]] := by
  refine ⟨rfl, rfl, rfl, rfl⟩

/-- C1, amended: `rectify` consults only the stored undistortion and
rectification maps — it succeeds exactly when all four are present
(regardless of any other absent field such as `rot_mat`), and when one is
absent it fails with the remap primitive's own error, never with a
`NotCalibrated` error (no repository operation raises one). A load from a
directory without `rot_mat.npy` leaves `rot_mat` exactly as it was. -/
theorem c1_rectify_no_notCalibrated :
    (∀ (prim : NpArray → NpArray → NpArray → NpArray) (c : StereoCalibration)
        (fl fr : NpArray),
        ((∃ out, rectify prim c (fl, fr) = Except.ok out) ↔
          (c.undistortion_map.left ≠ none ∧ c.rectification_map.left ≠ none ∧
           c.undistortion_map.right ≠ none ∧ c.rectification_map.right ≠ none))
        ∧ rectify prim c (fl, fr) ≠ Except.error PyError.notCalibrated)
    ∧ ∀ (c0 : StereoCalibration) (st : Store), lookupStore st "rot_mat" = none →
        (load_data c0 st).calib.rot_mat = c0.rot_mat := by
  constructor
  · intro prim c fl fr
    rcases h1 : c.undistortion_map.left with _ | m1 <;>
      rcases h2 : c.rectification_map.left with _ | m2 <;>
        rcases h3 : c.undistortion_map.right with _ | m3 <;>
          rcases h4 : c.rectification_map.right with _ | m4 <;>
            simp [rectify, cvRemap, h1, h2, h3, h4, Bind.bind, Except.bind]
  · intro c0 st h
    unfold load_data
    apply foldl_loadField_rot_mat
    intro p hp
    fin_cases hp <;> first
      | exact Or.inl h
      | exact Or.inr (fun c a => rfl)

/-- C1, witness: the load clause applied to the empty directory. -/
theorem c1_witness :
    (load_data StereoCalibration.init []).calib.rot_mat =
      StereoCalibration.init.rot_mat :=
  c1_rectify_no_notCalibrated.2 StereoCalibration.init [] rfl

/-- A `StereoCalibration` value with every attribute populated (the
invariant callers must check before using the geometry engines). -/
def Populated (c : StereoCalibration) : Prop :=
  c.cam_mats.left.isSome = true ∧ c.cam_mats.right.isSome = true ∧
  c.dist_coefs.left.isSome = true ∧ c.dist_coefs.right.isSome = true ∧
  c.rot_mat.isSome = true ∧ c.trans_vec.isSome = true ∧
  c.e_mat.isSome = true ∧ c.f_mat.isSome = true ∧
  c.rect_trans.left.isSome = true ∧ c.rect_trans.right.isSome = true ∧
  c.proj_mats.left.isSome = true ∧ c.proj_mats.right.isSome = true ∧
  c.disp_to_depth_mat.isSome = true ∧
  c.valid_boxes.left.isSome = true ∧ c.valid_boxes.right.isSome = true ∧
  c.undistortion_map.left.isSome = true ∧ c.undistortion_map.right.isSome = true ∧
  c.rectification_map.left.isSome = true ∧ c.rectification_map.right.isSome = true

set_option maxHeartbeats 1000000 in
/-- C4: saving a fully populated `StereoCalibration` and loading the
resulting directory into a fresh empty instance reproduces every field
exactly, with no warnings and no abort. -/
theorem c4_round_trip (c : StereoCalibration) (h : Populated c) :
    load_data StereoCalibration.init (save_data c) =
      { calib := c, warnings := [], aborted := false } := by
  obtain ⟨⟨cml, cmr⟩, ⟨dcl, dcr⟩, rm, tv, em, fm, ⟨rtl, rtr⟩, ⟨pml, pmr⟩, dd,
    ⟨vbl, vbr⟩, ⟨uml, umr⟩, ⟨rfl2, rfr2⟩⟩ := c
  obtain ⟨h1, h2, h3, h4, h5, h6, h7, h8, h9, h10, h11, h12, h13, h14, h15,
    h16, h17, h18, h19⟩ := h
  simp only [Option.isSome_iff_exists] at h1 h2 h3 h4 h5 h6 h7 h8 h9 h10
  simp only [Option.isSome_iff_exists] at h11 h12 h13 h14 h15 h16 h17 h18 h19
  obtain ⟨a1, rfl⟩ := h1
  obtain ⟨a2, rfl⟩ := h2
  obtain ⟨a3, rfl⟩ := h3
  obtain ⟨a4, rfl⟩ := h4
  obtain ⟨a5, rfl⟩ := h5
  obtain ⟨a6, rfl⟩ := h6
  obtain ⟨a7, rfl⟩ := h7
  obtain ⟨a8, rfl⟩ := h8
  obtain ⟨a9, rfl⟩ := h9
  obtain ⟨a10, rfl⟩ := h10
  obtain ⟨a11, rfl⟩ := h11
  obtain ⟨a12, rfl⟩ := h12
  obtain ⟨a13, rfl⟩ := h13
  obtain ⟨a14, rfl⟩ := h14
  obtain ⟨a15, rfl⟩ := h15
  obtain ⟨a16, rfl⟩ := h16
  obtain ⟨a17, rfl⟩ := h17
  obtain ⟨a18, rfl⟩ := h18
  obtain ⟨a19, rfl⟩ := h19
  simp only [load_data, calibFields, List.foldl_cons, List.foldl_nil]
  simp [loadField, lookupStore, save_data, List.find?]

/-- C4, witness: the round trip at a concrete fully populated value. -/
theorem c4_witness :
    Populated calibFull ∧
    load_data StereoCalibration.init (save_data calibFull) =
      { calib := calibFull, warnings := [], aborted := false } :=
  ⟨⟨rfl, rfl, rfl, rfl, rfl, rfl, rfl, rfl, rfl, rfl, rfl, rfl, rfl, rfl, rfl,
    rfl, rfl, rfl, rfl⟩,
   c4_round_trip calibFull
    ⟨rfl, rfl, rfl, rfl, rfl, rfl, rfl, rfl, rfl, rfl, rfl, rfl, rfl, rfl, rfl,
     rfl, rfl, rfl, rfl⟩⟩

/-- C5, amended: `calibrate_camera` performs no convergence or finiteness
check — it always succeeds, with the solver's outputs stored in a fully
populated `StereoCalibration` — and whenever `calibration_process` returns,
it has persisted the complete parameter set (a non-empty store), with no
`CalibrationDivergent` failure path anywhere. -/
theorem c5_no_divergence_check :
    (∀ (solveP : List NpArray → List NpArray → List NpArray → (ℕ × ℕ) →
          StereoCalibrateResult)
        (rectP : NpArray → NpArray → NpArray → NpArray → (ℕ × ℕ) → NpArray →
          NpArray → StereoRectifyResult)
        (mapsP : NpArray → NpArray → NpArray → NpArray → (ℕ × ℕ) → RemapTables)
        (cal : Calibrator),
        ∃ c, calibrate_camera solveP rectP mapsP cal = Except.ok c ∧ Populated c)
    ∧ ∀ (findC : NpArray → Option NpArray) (subP : NpArray → NpArray)
        (solveP : List NpArray → List NpArray → List NpArray → (ℕ × ℕ) →
          StereoCalibrateResult)
        (rectP : NpArray → NpArray → NpArray → NpArray → (ℕ × ℕ) → NpArray →
          NpArray → StereoRectifyResult)
        (mapsP : NpArray → NpArray → NpArray → NpArray → (ℕ × ℕ) → RemapTables)
        (cal : Calibrator) (n : ℕ) (readPair : ℕ → Option (NpArray × NpArray))
        (res : StereoCalibration × Store),
        calibration_process findC subP solveP rectP mapsP cal n readPair =
          Except.ok res →
        res.2 = save_data res.1 ∧ res.2 ≠ [] := by
  constructor
  · intro solveP rectP mapsP cal
    refine ⟨_, rfl, ?_⟩
    exact ⟨rfl, rfl, rfl, rfl, rfl, rfl, rfl, rfl, rfl, rfl, rfl, rfl, rfl,
      rfl, rfl, rfl, rfl, rfl, rfl⟩
  · intro findC subP solveP rectP mapsP cal n readPair res hres
    unfold calibration_process at hres
    rcases hfold : (List.range n).foldlM
        (fun c k =>
          match readPair (k + 1) with
          | some pair => corner_detect findC subP c pair
          | none => Except.ok c) cal with e | cal2
    · rw [hfold] at hres
      simp [Bind.bind, Except.bind] at hres
    · rw [hfold] at hres
      simp only [Bind.bind, Except.bind, calibrate_camera, Except.ok.injEq] at hres
      subst hres
      exact ⟨rfl, by simp [save_data]⟩

/-- A solver outcome flagged as not converged (the matrices are whatever the
diverged solve left behind). -/
def divergedSolve : StereoCalibrateResult :=
  ⟨[1], [0], [1], [0], [1], [1], [1], [1], false⟩

/-- A concrete `Calibrator` state. -/
def calW : Calibrator := ⟨0, 2, 2, 1, (4, 4), [0], [], [], []⟩

/-- The calibration parameters assembled from `divergedSolve` by
`calibrate_camera` with the concrete rectification and remap oracles below. -/
def cDiv : StereoCalibration :=
  ⟨⟨some [1], some [1]⟩, ⟨some [0], some [0]⟩, some [1], some [1], some [1],
   some [1], ⟨some [2], some [2]⟩, ⟨some [2], some [2]⟩, some [2],
   ⟨some [2], some [2]⟩, ⟨some [3], some [3]⟩, ⟨some [3], some [3]⟩⟩

/-- C5, counterexample: with a stereo solve that did not converge
(`converged = false`), `calibration_process` still completes successfully —
no `CalibrationDivergent` error — and persists the full (non-empty)
parameter store. -/
theorem c5_counterexample :
    divergedSolve.converged = false ∧
    calibration_process (fun _ => some [0]) (fun cs => cs)
        (fun _ _ _ _ => divergedSolve)
        (fun _ _ _ _ _ _ _ => ⟨[2], [2], [2], [2], [2], [2], [2]⟩)
        (fun _ _ _ _ _ => ⟨[3], [3]⟩)
        calW 1 (fun _ => some ([0], [0])) = Except.ok (cDiv, save_data cDiv) ∧
    save_data cDiv ≠ [] := by
  refine ⟨rfl, rfl, by simp [save_data]⟩

/-- C5, witness: the amended theorem applied at the diverged concrete run. -/
theorem c5_witness :
    (cDiv, save_data cDiv).2 = save_data (cDiv, save_data cDiv).1 ∧
    (cDiv, save_data cDiv).2 ≠ [] :=
  c5_no_divergence_check.2 (fun _ => some [0]) (fun cs => cs)
    (fun _ _ _ _ => divergedSolve)
    (fun _ _ _ _ _ _ _ => ⟨[2], [2], [2], [2], [2], [2], [2]⟩)
    (fun _ _ _ _ _ => ⟨[3], [3]⟩)
    calW 1 (fun _ => some ([0], [0])) (cDiv, save_data cDiv) rfl

/-- Looking up contour `i` in the `mean_amplitudes` dictionary built from
position `n` onward: the gate-passing contour at list position `i` is
reported with the mean of the original field over its filled mask. -/
lemma lookup_mean_amplitude_from (proc : DepthMapProcessor) :
    ∀ (l : List Contour) (n i : ℕ) (ct : Contour),
      l[i]? = some ct → proc.min_contour_area ≤ ct.area →
      (((List.enumFrom n l).filterMap (fun ic =>
          if proc.min_contour_area ≤ ic.2.area then
            some (ic.1, cvMean proc.depth_map_original ic.2.fill)
          else none)).lookup (n + i)) =
        some (cvMean proc.depth_map_original ct.fill) := by
  intro l
  induction l with
  | nil => intro n i ct h _; simp at h
  | cons c0 tl ih =>
      intro n i ct h hge
      cases i with
      | zero =>
          rw [List.getElem?_cons_zero, Option.some.injEq] at h
          subst h
          simp [List.enumFrom_cons, List.filterMap_cons, hge, List.lookup_cons]
      | succ i =>
          rw [List.getElem?_cons_succ] at h
          have hre : n + (i + 1) = (n + 1) + i := by omega
          by_cases hc : proc.min_contour_area ≤ c0.area
          · simp only [List.enumFrom_cons, List.filterMap_cons, if_pos hc,
              List.lookup_cons]
            have hne : (n + (i + 1) == n) = false := by
              simp only [beq_eq_false_iff_ne, ne_eq]
              omega
            simp only [hne]
            rw [hre]
            exact ih (n + 1) i ct h hge
          · simp only [List.enumFrom_cons, List.filterMap_cons, if_neg hc]
            rw [hre]
            exact ih (n + 1) i ct h hge

/-- C8: for every contour passing the minimum-area gate, the reported mean
amplitude is the arithmetic mean of the original (non-normalized) field over
the contour's filled mask. -/
theorem c8_mean_amplitude (proc : DepthMapProcessor) (contours : List Contour)
    (i : ℕ) (ct : Contour) (hct : contours[i]? = some ct)
    (hge : proc.min_contour_area ≤ ct.area) :
    (calculate_mean_amplitude proc contours).lookup i =
      some ((∑ p ∈ ct.fill, proc.depth_map_original p) / ct.fill.card) := by
  have h := lookup_mean_amplitude_from proc contours 0 i ct hct hge
  simpa [calculate_mean_amplitude, List.enum, cvMean] using h

/-- A concrete processor over a flat field of value 180. -/
def procW : DepthMapProcessor :=
  ⟨fun _ => 180, 500, 10, [50, 100, 200, 255], 5, 1, 2⟩

/-- A concrete contour: one filled pixel, area 10. -/
def ctW : Contour := ⟨{(0, 0)}, 10⟩

/-- C8, witness: the theorem applied at the concrete flat-field contour. -/
theorem c8_witness :
    (calculate_mean_amplitude procW [ctW]).lookup 0 =
      some ((∑ p ∈ ctW.fill, procW.depth_map_original p) / ctW.fill.card) :=
  c8_mean_amplitude procW [ctW] 0 ctW rfl (by norm_num [procW, ctW])

/-- A schedule in which the flag is set after 3 pushed pairs and the consumer
polls once more before the producer gets to push its sentinel. -/
def c9sched : List PipeLabel :=
  [PipeLabel.prodStep, PipeLabel.prodStep, PipeLabel.prodStep,
   PipeLabel.consStep, PipeLabel.consStep, PipeLabel.consStep,
   PipeLabel.setStop, PipeLabel.consStep, PipeLabel.prodStep]

/-- C9, counterexample: after the producer pushes 3 pairs and the flag is
set, the consumer — seeing the flag set and the queue momentarily empty —
terminates before the producer pushes the `(None, None)` sentinel: it has
received the 3 data pairs but never the sentinel, which is left in the
queue. -/
theorem c9_counterexample :
    (pipeRun c9sched pipeInit).produced = 3 ∧
    (pipeRun c9sched pipeInit).prodDone = true ∧
    (pipeRun c9sched pipeInit).consDone = true ∧
    (pipeRun c9sched pipeInit).received = [some 0, some 1, some 2] ∧
    none ∉ (pipeRun c9sched pipeInit).received ∧
    (pipeRun c9sched pipeInit).queue = [none] := by
  refine ⟨rfl, rfl, rfl, rfl, by decide, rfl⟩

/-- The channel invariant: what the consumer has received followed by what is
still queued is exactly the pushed history — the data pairs in order,
followed by exactly one sentinel once the producer has exited. -/
def PipeInv (s : PipeState) : Prop :=
  s.received ++ s.queue =
    (List.range s.produced).map some ++ (if s.prodDone then [none] else [])

/-- Every transition preserves the channel invariant. -/
lemma pipeStep_inv (l : PipeLabel) (s : PipeState) (h : PipeInv s) :
    PipeInv (pipeStep l s) := by
  unfold PipeInv at h ⊢
  cases l with
  | setStop => simpa using h
  | prodStep =>
      by_cases hp : s.prodDone
      · simpa [pipeStep, hp] using h
      · by_cases hs : s.stop
        · simp only [pipeStep, hp, hs, if_true, if_false, Bool.false_eq_true,
            ite_true, ite_false]
          simp only [if_neg hp] at h
          simp [hp, hs, ← List.append_assoc, h]
        · simp only [if_neg hp] at h
          simp [pipeStep, hp, hs, List.range_succ, ← List.append_assoc, h]
  | consStep =>
      simp only [pipeStep]
      by_cases hdc : s.consDone = true ∨ s.consCrashed = true
      · simp only [if_pos hdc]
        exact h
      · by_cases hse : s.stop = true ∧ s.queue = []
        · simp only [if_neg hdc, if_pos hse]
          simpa using h
        · simp only [if_neg hdc, if_neg hse]
          rcases hq : s.queue with _ | ⟨m, rest⟩
          · simpa using h
          · rw [hq] at h
            simpa [List.append_assoc] using h

/-- The channel invariant holds along every schedule. -/
lemma pipeRun_inv (sched : List PipeLabel) :
    ∀ s : PipeState, PipeInv s → PipeInv (pipeRun sched s) := by
  induction sched with
  | nil => intro s h; exact h
  | cons l ls ih =>
      intro s h
      rw [pipeRun, List.foldl_cons]
      exact ih (pipeStep l s) (pipeStep_inv l s h)

/-- C9, amended: along every schedule, the messages the consumer has
received followed by those still queued are exactly the pushed history — the
produced pairs in order, plus exactly one `(None, None)` sentinel once the
producer has exited (so no pushed message is ever lost or duplicated while
both loops run, and the producer pushes the sentinel exactly once); and the
consumer leaves its loop only when the stop flag is set and the queue is
empty, so it has received every already-queued pair before terminating. The
sentinel itself, however, is not guaranteed to be received (see the
counterexample). -/
theorem c9_pipeline_amended :
    (∀ sched : List PipeLabel, PipeInv (pipeRun sched pipeInit))
    ∧ ∀ s : PipeState, s.consDone = false → s.consCrashed = false →
        (pipeStep PipeLabel.consStep s).consDone = true →
        s.stop = true ∧ s.queue = [] := by
  constructor
  · intro sched
    exact pipeRun_inv sched pipeInit (by simp [PipeInv, pipeInit])
  · intro s hcd hcc hstep
    simp only [pipeStep] at hstep
    by_cases hdc : s.consDone = true ∨ s.consCrashed = true
    · rcases hdc with hdc | hdc
      · rw [hcd] at hdc; cases hdc
      · rw [hcc] at hdc; cases hdc
    · by_cases hse : s.stop = true ∧ s.queue = []
      · exact hse
      · rw [if_neg hdc, if_neg hse] at hstep
        rcases hq : s.queue with _ | ⟨m, rest⟩
        · rw [hq] at hstep
          simp at hstep
          rw [hstep] at hcd
          cases hcd
        · rw [hq] at hstep
          simp at hstep
          rw [hstep] at hcd
          cases hcd

/-- C9, witness: the exit clause applied at a concrete consumer state with
the flag set and the queue drained. -/
theorem c9_witness :
    (⟨[], true, true, false, false, 3, [some 0, some 1, some 2]⟩ :
        PipeState).stop = true ∧
    (⟨[], true, true, false, false, 3, [some 0, some 1, some 2]⟩ :
        PipeState).queue = [] :=
  c9_pipeline_amended.2 ⟨[], true, true, false, false, 3, [some 0, some 1, some 2]⟩
    rfl rfl rfl
